import Mathlib

/-!
Shallow embedding of `horton/wfn.py`: the wavefunction containers
`ClosedShellWFN` and `OpenShellWFN` together with their shared base-class
algorithms (`compute_density_matrix`, `apply_basis_permutation`,
`from_hdf5` dispatch).

The orbital expansion objects produced by the linalg factory are external
collaborators in the source; they are modelled by an abstract type `E`
together with abstract functions for the operations the wavefunction code
invokes on them (density contribution, basis permutation, HDF5 read/write).
Python exceptions are modelled with `Except`, and Python generators with a
list of steps, each either a yielded value or a raised error.
-/

namespace Horton

/-- The errors raised by the code under study: `ElectronCountError`
(from `horton.exceptions`), `ValueError` for a bad `select` argument,
`TypeError` for an unknown class name during HDF5 dispatch, and `KeyError`
for a missing dataset or attribute in an HDF5 group. -/
inductive WfnError where
  | electronCount (msg : String)
  | invalidSelection (msg : String)
  | typeError (clsname : String)
  | keyError (key : String)
  deriving DecidableEq, Repr

/-- One step of a Python generator body: either a `yield` of a value or a
raised exception. A generator is modelled as the list of steps its body
performs when advanced to exhaustion. -/
inductive GenStep (α : Type u) where
  | yielded (a : α)
  | raised (e : WfnError)
  deriving DecidableEq, Repr

/-- The values a generator yields before (possibly) raising. -/
def stepsYields : List (GenStep α) → List α
  | [] => []
  | .yielded a :: rest => a :: stepsYields rest
  | .raised _ :: _ => []

/-- Advance a generator once: `ok none` when exhausted, `ok (some (a, k))`
when the body yields `a` with continuation `k`, and `error e` when the body
raises `e` before its next yield. -/
def genNext : List (GenStep α) → Except WfnError (Option (α × List (GenStep α)))
  | [] => .ok none
  | .yielded a :: rest => .ok (some (a, rest))
  | .raised e :: _ => .error e

/-- `True` iff the generator contains a raised error before exhaustion. -/
def stepsRaise : List (GenStep α) → Bool
  | [] => false
  | .yielded _ :: rest => stepsRaise rest
  | .raised _ :: _ => true

/-- `Except` result is `ok`. -/
def exceptOk : Except WfnError α → Bool
  | .ok _ => true
  | .error _ => false

/-- `Except` result is an `ElectronCountError`. -/
def exceptElectronCountErr : Except WfnError α → Bool
  | .error (.electronCount _) => true
  | _ => false

/-! ## ClosedShellWFN -/

/-- The state of a `ClosedShellWFN` instance: the fields `_nbasis`, `_norb`,
`_nep` and `_expansion` set by `__init__`. (`_lf` is only used during
construction and is not part of the state we track.) -/
structure ClosedShellWFN (E : Type u) where
  nbasis : Int
  norb : Int
  nep : Int
  expansion : E
  deriving DecidableEq, Repr

/-- `ClosedShellWFN.__init__`: stores the fields (with `norb` defaulting to
`nbasis` as in `BaseWFN.__init__`), raises `ElectronCountError` when
`nep <= 0` or `nbasis < nep`, and only then calls
`lf.create_expansion(nbasis, norb, do_energies=True)`. The second component
of the result records the `(nbasis, norb)` arguments of every
`create_expansion` call made by the factory `create`, so that allocation
behaviour on the failure paths is observable. -/
def ClosedShellWFN.make (create : Int → Int → E) (nep nbasis : Int)
    (norb : Option Int) :
    Except WfnError (ClosedShellWFN E) × List (Int × Int) :=
  let norbv := match norb with
    | none => nbasis
    | some v => v
  if nep ≤ 0 then
    (.error (.electronCount "At least one pair of electrons is required."), [])
  else if nbasis < nep then
    (.error (.electronCount "The number of spatial basis functions must not be lower than the number of electron pairs."), [])
  else
    (.ok { nbasis := nbasis, norb := norbv, nep := nep,
           expansion := create nbasis norbv }, [(nbasis, norbv)])

/-- `ClosedShellWFN._get_nel`: `self._nep*2`. -/
def ClosedShellWFN.nel (w : ClosedShellWFN E) : Int := w.nep * 2

/-- `ClosedShellWFN.iter_expansions`: a generator over
`(expansion, nocc, scale)` triples, dispatching on the `select` string
exactly as the `if`/`elif` chain in the source. -/
def ClosedShellWFN.iter_expansions (w : ClosedShellWFN E) (select : String) :
    List (GenStep (E × Int × Int)) :=
  if select = "alpha" then [.yielded (w.expansion, w.nep, 1)]
  else if select = "beta" then [.yielded (w.expansion, w.nep, 1)]
  else if select = "full" then [.yielded (w.expansion, w.nep, 2)]
  else if select = "spin" then []
  else [.raised (.invalidSelection "select has to be one of alpha, beta, full or spin.")]

/-! ## OpenShellWFN -/

/-- The state of an `OpenShellWFN` instance: `_nbasis`, `_norb`, `_nalpha`,
`_nbeta`, `_alpha_expansion` and `_beta_expansion`. -/
structure OpenShellWFN (E : Type u) where
  nbasis : Int
  norb : Int
  nalpha : Int
  nbeta : Int
  alpha_expansion : E
  beta_expansion : E
  deriving DecidableEq, Repr

/-- `OpenShellWFN.__init__`: stores the fields (with `norb` defaulting to
`nbasis`), raises `ElectronCountError` when `nalpha < 0` or `nbeta < 0`,
when `nalpha == 0 and nbeta == 0`, or when `nbasis < nalpha` or
`nbasis < nbeta`, and only then calls `lf.create_expansion` twice. The
second component records the arguments of every `create_expansion` call. -/
def OpenShellWFN.make (create : Int → Int → E) (nalpha nbeta nbasis : Int)
    (norb : Option Int) :
    Except WfnError (OpenShellWFN E) × List (Int × Int) :=
  let norbv := match norb with
    | none => nbasis
    | some v => v
  if nalpha < 0 ∨ nbeta < 0 then
    (.error (.electronCount "Negative number of electrons is not allowed."), [])
  else if nalpha = 0 ∧ nbeta = 0 then
    (.error (.electronCount "At least one alpha or beta electron is required."), [])
  else if nbasis < nalpha ∨ nbasis < nbeta then
    (.error (.electronCount "The number of spatial basis functions must not be lower than the number of alpha or beta electrons."), [])
  else
    (.ok { nbasis := nbasis, norb := norbv, nalpha := nalpha, nbeta := nbeta,
           alpha_expansion := create nbasis norbv,
           beta_expansion := create nbasis norbv },
     [(nbasis, norbv), (nbasis, norbv)])

/-- `OpenShellWFN._get_nel`: `self._nalpha + self._nbeta`. -/
def OpenShellWFN.nel (w : OpenShellWFN E) : Int := w.nalpha + w.nbeta

/-- `OpenShellWFN.iter_expansions`: a generator over
`(expansion, nocc, scale)` triples, dispatching on the `select` string
exactly as the `if`/`elif` chain in the source. -/
def OpenShellWFN.iter_expansions (w : OpenShellWFN E) (select : String) :
    List (GenStep (E × Int × Int)) :=
  if select = "alpha" then [.yielded (w.alpha_expansion, w.nalpha, 1)]
  else if select = "beta" then [.yielded (w.beta_expansion, w.nbeta, 1)]
  else if select = "full" then
    [.yielded (w.alpha_expansion, w.nalpha, 1),
     .yielded (w.beta_expansion, w.nbeta, 1)]
  else if select = "spin" then
    [.yielded (w.alpha_expansion, w.nalpha, 1),
     .yielded (w.beta_expansion, w.nbeta, -1)]
  else [.raised (.invalidSelection "select has to be one of alpha, beta, full or spin.")]

/-! ## BaseWFN.compute_density_matrix

The density matrix target `dm` is a one-body operator of the linalg
factory; it is modelled as an element of an additive commutative group `M`.
The external call `expansion.compute_density_matrix(nocc, dm, factor=scale)`
adds `scale` times the expansion density contribution for its first `nocc`
orbitals into `dm`; the contribution is modelled by the abstract function
`contrib : E → Int → M`, linear in the `factor` by assumption on the
collaborator (scaling by the integer `factor` is `zsmul`). -/

/-- Run the accumulation loop of `BaseWFN.compute_density_matrix` over a
generator trace: each yielded `(expansion, nocc, scale)` adds
`scale • contrib expansion nocc` to the accumulator; a raised error aborts
the loop and propagates. -/
def accumDensity [AddCommGroup M] (contrib : E → Int → M) :
    List (GenStep (E × Int × Int)) → M → Except WfnError M
  | [], dm => .ok dm
  | .yielded (e, nocc, scale) :: rest, dm =>
      accumDensity contrib rest (dm + scale • contrib e nocc)
  | .raised err :: _, _ => .error err

/-- `BaseWFN.compute_density_matrix(dm, select)`: `dm.reset()` zeroes the
target, discarding its incoming value, then the loop over
`self.iter_expansions(select)` accumulates into it. The final value of the
target is returned (or the raised error, with the loop aborted). -/
def BaseWFN.compute_density_matrix [AddCommGroup M] (contrib : E → Int → M)
    (iter : String → List (GenStep (E × Int × Int))) (dm : M)
    (select : String) : Except WfnError M :=
  let _ := dm
  accumDensity contrib (iter select) (0 : M)

/-- `compute_density_matrix` on a `ClosedShellWFN` (inherited from
`BaseWFN`, with `self.iter_expansions` resolving to the subclass). -/
def ClosedShellWFN.compute_density_matrix [AddCommGroup M]
    (contrib : E → Int → M) (w : ClosedShellWFN E) (dm : M)
    (select : String) : Except WfnError M :=
  BaseWFN.compute_density_matrix contrib w.iter_expansions dm select

/-- `compute_density_matrix` on an `OpenShellWFN` (inherited from
`BaseWFN`, with `self.iter_expansions` resolving to the subclass). -/
def OpenShellWFN.compute_density_matrix [AddCommGroup M]
    (contrib : E → Int → M) (w : OpenShellWFN E) (dm : M)
    (select : String) : Except WfnError M :=
  BaseWFN.compute_density_matrix contrib w.iter_expansions dm select

/-! ## apply_basis_permutation

`BaseWFN.apply_basis_permutation` iterates `self.iter_expansions()` — the
subclass generator with its default `select='full'` — and mutates each
yielded expansion object in place. In-place mutation of a shared object is
modelled through slots: each variant yields references to its expansion
fields, and the loop rewrites the field a yielded reference denotes. The
per-variant slot generators below mirror the `if`/`elif` chains of
`iter_expansions`; the lemmas `closed_slots_spec`/`open_slots_spec` tie
them to `iter_expansions` itself. -/

/-- The single expansion slot of `ClosedShellWFN`: the `_expansion` field. -/
inductive CSlot where
  | main
  deriving DecidableEq, Repr

/-- The two expansion slots of `OpenShellWFN`: `_alpha_expansion` and
`_beta_expansion`. -/
inductive OSlot where
  | alpha
  | beta
  deriving DecidableEq, Repr

/-- The expansion object a closed-shell slot refers to. -/
def ClosedShellWFN.getSlot (w : ClosedShellWFN E) : CSlot → E
  | .main => w.expansion

/-- Rewrite the expansion object a closed-shell slot refers to. -/
def ClosedShellWFN.updSlot (w : ClosedShellWFN E) : CSlot → (E → E) → ClosedShellWFN E
  | .main, f => { w with expansion := f w.expansion }

/-- The expansion object an open-shell slot refers to. -/
def OpenShellWFN.getSlot (w : OpenShellWFN E) : OSlot → E
  | .alpha => w.alpha_expansion
  | .beta => w.beta_expansion

/-- Rewrite the expansion object an open-shell slot refers to. -/
def OpenShellWFN.updSlot (w : OpenShellWFN E) : OSlot → (E → E) → OpenShellWFN E
  | .alpha, f => { w with alpha_expansion := f w.alpha_expansion }
  | .beta, f => { w with beta_expansion := f w.beta_expansion }

/-- `ClosedShellWFN.iter_expansions` with the yielded expansion objects
replaced by the slots (object identities) they alias. -/
def ClosedShellWFN.iterSlots (w : ClosedShellWFN E) (select : String) :
    List (GenStep (CSlot × Int × Int)) :=
  if select = "alpha" then [.yielded (.main, w.nep, 1)]
  else if select = "beta" then [.yielded (.main, w.nep, 1)]
  else if select = "full" then [.yielded (.main, w.nep, 2)]
  else if select = "spin" then []
  else [.raised (.invalidSelection "select has to be one of alpha, beta, full or spin.")]

/-- `OpenShellWFN.iter_expansions` with the yielded expansion objects
replaced by the slots (object identities) they alias. -/
def OpenShellWFN.iterSlots (w : OpenShellWFN E) (select : String) :
    List (GenStep (OSlot × Int × Int)) :=
  if select = "alpha" then [.yielded (.alpha, w.nalpha, 1)]
  else if select = "beta" then [.yielded (.beta, w.nbeta, 1)]
  else if select = "full" then
    [.yielded (.alpha, w.nalpha, 1), .yielded (.beta, w.nbeta, 1)]
  else if select = "spin" then
    [.yielded (.alpha, w.nalpha, 1), .yielded (.beta, w.nbeta, -1)]
  else [.raised (.invalidSelection "select has to be one of alpha, beta, full or spin.")]

/-- Map a function over the value of a generator step. -/
def GenStep.mapVal (f : α → β) : GenStep α → GenStep β
  | .yielded a => .yielded (f a)
  | .raised e => .raised e

/-- The loop body of `BaseWFN.apply_basis_permutation`: for each yielded
`(expansion, nocc, scale)` triple — here a slot reference — replace the
referenced expansion with `applyP` of it (the in-place
`expansion.apply_basis_permutation(permutation)`); a raised error aborts
the loop. Generic over the wavefunction state `W` and slot type `σ`. -/
def permLoop (upd : W → σ → (E → E) → W) (applyP : E → E) :
    List (GenStep (σ × Int × Int)) → W → Except WfnError W
  | [], w => .ok w
  | .yielded (s, _, _) :: rest, w => permLoop upd applyP rest (upd w s applyP)
  | .raised e :: _, _ => .error e

/-- `apply_basis_permutation` on a `ClosedShellWFN`: the base-class loop
over `self.iter_expansions()` (default `select='full'`), mutating yielded
expansions in place. `applyP` is the external
`Expansion.apply_basis_permutation` for the given permutation. -/
def ClosedShellWFN.apply_basis_permutation (applyP : E → E)
    (w : ClosedShellWFN E) : Except WfnError (ClosedShellWFN E) :=
  permLoop ClosedShellWFN.updSlot applyP (w.iterSlots "full") w

/-- `apply_basis_permutation` on an `OpenShellWFN`: the base-class loop
over `self.iter_expansions()` (default `select='full'`), mutating yielded
expansions in place. -/
def OpenShellWFN.apply_basis_permutation (applyP : E → E)
    (w : OpenShellWFN E) : Except WfnError (OpenShellWFN E) :=
  permLoop OpenShellWFN.updSlot applyP (w.iterSlots "full") w

/-! ## HDF5 persistence

An HDF5 group is modelled as an association list of integer datasets, an
association list of subgroups (holding opaque serialized-expansion data of
type `EG`), and an optional `class` attribute. Serializing an expansion is
the abstract `expToH : E → EG`; `Expansion.read_from_hdf5` loads data from
a subgroup into an existing expansion object and is the abstract
`expRead : E → EG → E`. -/

/-- A persisted HDF5 group as the wavefunction code reads and writes it. -/
structure WfnGroup (EG : Type u) where
  classAttr : Option String
  ints : List (String × Int)
  subs : List (String × EG)
  deriving DecidableEq, Repr

/-- First-match association-list lookup (dictionary access on a group). -/
def lookupKey : List (String × α) → String → Option α
  | [], _ => none
  | (k, v) :: rest, key => if key = k then some v else lookupKey rest key

/-- Read an integer dataset, raising `KeyError` when absent. -/
def WfnGroup.getInt (g : WfnGroup EG) (k : String) : Except WfnError Int :=
  match lookupKey g.ints k with
  | some v => .ok v
  | none => .error (.keyError k)

/-- Read a subgroup, raising `KeyError` when absent. -/
def WfnGroup.getSub (g : WfnGroup EG) (k : String) : Except WfnError EG :=
  match lookupKey g.subs k with
  | some v => .ok v
  | none => .error (.keyError k)

/-- `ClosedShellWFN.to_hdf5`: writes `nep`, `nbasis`, `norb` and the
`expansion` subgroup into the group. `to_hdf5` itself does not write the
`class` attribute. -/
def ClosedShellWFN.to_hdf5 (expToH : E → EG) (w : ClosedShellWFN E) :
    WfnGroup EG :=
  { classAttr := none,
    ints := [("nep", w.nep), ("nbasis", w.nbasis), ("norb", w.norb)],
    subs := [("expansion", expToH w.expansion)] }

/-- `OpenShellWFN.to_hdf5`: writes `nalpha`, `nbeta`, `nbasis`, `norb` and
the `alpha_expansion` and `beta_expansion` subgroups. -/
def OpenShellWFN.to_hdf5 (expToH : E → EG) (w : OpenShellWFN E) :
    WfnGroup EG :=
  { classAttr := none,
    ints := [("nalpha", w.nalpha), ("nbeta", w.nbeta),
             ("nbasis", w.nbasis), ("norb", w.norb)],
    subs := [("alpha_expansion", expToH w.alpha_expansion),
             ("beta_expansion", expToH w.beta_expansion)] }

/-- Modelled from the spec: the caller-side checkpoint writer that tags the
group a wavefunction was serialized into with the type discriminant (the
`class` attribute read by `BaseWFN.from_hdf5`) is repository code not under
`src/`; per the spec, the persisted group is a variant-tagged tree, the tag
naming the concrete variant. The discriminant value is the class name the
dispatch in `src/horton/wfn.py` compares against. -/
def ClosedShellWFN.dump (expToH : E → EG) (w : ClosedShellWFN E) :
    WfnGroup EG :=
  { w.to_hdf5 expToH with classAttr := some "ClosedShellWFN" }

/-- Modelled from the spec: caller-side variant tagging for the open-shell
variant (see `ClosedShellWFN.dump`). -/
def OpenShellWFN.dump (expToH : E → EG) (w : OpenShellWFN E) :
    WfnGroup EG :=
  { w.to_hdf5 expToH with classAttr := some "OpenShellWFN" }

/-- `ClosedShellWFN.from_hdf5`: reads `nep`, `nbasis`, `norb`, constructs a
`ClosedShellWFN` through `__init__` (re-running validation and expansion
allocation), then loads the `expansion` subgroup into the fresh expansion
with `read_from_hdf5`. -/
def ClosedShellWFN.from_hdf5 (create : Int → Int → E) (expRead : E → EG → E)
    (g : WfnGroup EG) : Except WfnError (ClosedShellWFN E) := do
  let nep ← g.getInt "nep"
  let nbasis ← g.getInt "nbasis"
  let norb ← g.getInt "norb"
  let w ← (ClosedShellWFN.make create nep nbasis (some norb)).1
  let eg ← g.getSub "expansion"
  pure { w with expansion := expRead w.expansion eg }

/-- `OpenShellWFN.from_hdf5`: reads `nalpha`, `nbeta`, `nbasis`, `norb`,
constructs an `OpenShellWFN` through `__init__`, then loads the
`alpha_expansion` and `beta_expansion` subgroups into the fresh
expansions. -/
def OpenShellWFN.from_hdf5 (create : Int → Int → E) (expRead : E → EG → E)
    (g : WfnGroup EG) : Except WfnError (OpenShellWFN E) := do
  let nalpha ← g.getInt "nalpha"
  let nbeta ← g.getInt "nbeta"
  let nbasis ← g.getInt "nbasis"
  let norb ← g.getInt "norb"
  let w ← (OpenShellWFN.make create nalpha nbeta nbasis (some norb)).1
  let ega ← g.getSub "alpha_expansion"
  let egb ← g.getSub "beta_expansion"
  pure { w with alpha_expansion := expRead w.alpha_expansion ega,
                beta_expansion := expRead w.beta_expansion egb }

/-- `BaseWFN.from_hdf5`: the top-level deserialization dispatch. Reads the
`class` attribute and invokes the matching variant reconstruction, raising
`TypeError` for an unrecognized class name (and `KeyError` when the
attribute is absent). -/
def BaseWFN.from_hdf5 (create : Int → Int → E) (expRead : E → EG → E)
    (g : WfnGroup EG) :
    Except WfnError (ClosedShellWFN E ⊕ OpenShellWFN E) :=
  match g.classAttr with
  | none => .error (.keyError "class")
  | some clsname =>
    if clsname = "ClosedShellWFN" then
      (ClosedShellWFN.from_hdf5 create expRead g).map Sum.inl
    else if clsname = "OpenShellWFN" then
      (OpenShellWFN.from_hdf5 create expRead g).map Sum.inr
    else .error (.typeError clsname)

/-! ## Supporting lemmas -/

/-- A raise-free generator trace accumulates exactly the left fold of the
density update over its yielded triples. -/
theorem accumDensity_eq_foldl [AddCommGroup M] (contrib : E → Int → M)
    (l : List (GenStep (E × Int × Int))) (h : stepsRaise l = false) (dm : M) :
    accumDensity contrib l dm =
      .ok ((stepsYields l).foldl (fun m t => m + t.2.2 • contrib t.1 t.2.1) dm) := by
  induction l generalizing dm with
  | nil => rfl
  | cons hd tl ih =>
    cases hd with
    | yielded a =>
      obtain ⟨e, nocc, scale⟩ := a
      simpa [accumDensity, stepsYields, stepsRaise] using
        ih (by simpa [stepsRaise] using h) (dm + scale • contrib e nocc)
    | raised err => simp [stepsRaise] at h

/-- The closed-shell slot generator is `iter_expansions` viewed through the
slot dereference: mapping `getSlot` over the yielded slots recovers the
yielded expansion objects. -/
theorem closed_iterSlots_spec (w : ClosedShellWFN E) (select : String) :
    (w.iterSlots select).map (GenStep.mapVal (fun t => (w.getSlot t.1, t.2))) =
      w.iter_expansions select := by
  unfold ClosedShellWFN.iterSlots ClosedShellWFN.iter_expansions
  split_ifs <;> rfl

/-- The open-shell slot generator is `iter_expansions` viewed through the
slot dereference. -/
theorem open_iterSlots_spec (w : OpenShellWFN E) (select : String) :
    (w.iterSlots select).map (GenStep.mapVal (fun t => (w.getSlot t.1, t.2))) =
      w.iter_expansions select := by
  unfold OpenShellWFN.iterSlots OpenShellWFN.iter_expansions
  split_ifs <;> rfl

/-- A concrete closed-shell state (`nep = 1`, `nbasis = norb = 2`) used to
instantiate universally quantified statements, with `Unit` standing in for
the external expansion type. It is the value produced by
`ClosedShellWFN.make (fun x y => ()) 1 2 none`. -/
def sampleClosed : ClosedShellWFN Unit :=
  { nbasis := 2, norb := 2, nep := 1, expansion := () }

/-- A concrete open-shell state (`nalpha = 2`, `nbeta = 1`,
`nbasis = norb = 3`), the value produced by
`OpenShellWFN.make (fun x y => ()) 2 1 3 none`. -/
def sampleOpen : OpenShellWFN Unit :=
  { nbasis := 3, norb := 3, nalpha := 2, nbeta := 1,
    alpha_expansion := (), beta_expansion := () }

/-- Characterization of a successful `ClosedShellWFN.make`: the validation
conditions held, the fields store the arguments (`norb` defaulting to
`nbasis`), and exactly one expansion was allocated. -/
theorem closed_make_ok {E : Type u} (create : Int → Int → E)
    (nep nbasis : Int) (norb : Option Int) (w : ClosedShellWFN E)
    (t : List (Int × Int))
    (h : ClosedShellWFN.make create nep nbasis norb = (.ok w, t)) :
    0 < nep ∧ nep ≤ nbasis ∧ w.nbasis = nbasis ∧ w.nep = nep ∧
    w.norb = norb.getD nbasis ∧
    w.expansion = create nbasis w.norb ∧ t = [(nbasis, w.norb)] := by
  unfold ClosedShellWFN.make at h
  split_ifs at h with h1 h2
  · simp at h
  · simp at h
  · simp only [Prod.mk.injEq, Except.ok.injEq] at h
    obtain ⟨rfl, rfl⟩ := h
    refine ⟨by omega, by omega, rfl, rfl, ?_, rfl, rfl⟩
    cases norb <;> rfl

/-- Characterization of a successful `OpenShellWFN.make`. -/
theorem open_make_ok {E : Type u} (create : Int → Int → E)
    (nalpha nbeta nbasis : Int) (norb : Option Int) (w : OpenShellWFN E)
    (t : List (Int × Int))
    (h : OpenShellWFN.make create nalpha nbeta nbasis norb = (.ok w, t)) :
    0 ≤ nalpha ∧ 0 ≤ nbeta ∧ ¬(nalpha = 0 ∧ nbeta = 0) ∧
    nalpha ≤ nbasis ∧ nbeta ≤ nbasis ∧
    w.nbasis = nbasis ∧ w.nalpha = nalpha ∧ w.nbeta = nbeta ∧
    w.norb = norb.getD nbasis ∧
    w.alpha_expansion = create nbasis w.norb ∧
    w.beta_expansion = create nbasis w.norb ∧
    t = [(nbasis, w.norb), (nbasis, w.norb)] := by
  unfold OpenShellWFN.make at h
  split_ifs at h with h1 h2 h3
  · simp at h
  · simp at h
  · simp at h
  · simp only [Prod.mk.injEq, Except.ok.injEq] at h
    obtain ⟨rfl, rfl⟩ := h
    push_neg at h1 h3
    refine ⟨h1.1, h1.2, h2, h3.1, h3.2, rfl, rfl, rfl, ?_, rfl, rfl, rfl⟩
    cases norb <;> rfl

/-- The closed-shell state produced by
`ClosedShellWFN.make (fun x y => ()) 2 3 (some 1)`: construction succeeds
although the requested `norb = 1` is below `nep = 2`. -/
def lowNorbClosed : ClosedShellWFN Unit :=
  { nbasis := 3, norb := 1, nep := 2, expansion := () }

/-- The open-shell state produced by
`OpenShellWFN.make (fun x y => ()) 2 1 3 (some 1)`. -/
def lowNorbOpen : OpenShellWFN Unit :=
  { nbasis := 3, norb := 1, nalpha := 2, nbeta := 1,
    alpha_expansion := (), beta_expansion := () }

/-- The closed-shell state produced by
`ClosedShellWFN.make (fun x y => ()) 2 3 none`: `norb` takes its default
`nbasis`. -/
def defNorbClosed : ClosedShellWFN Unit :=
  { nbasis := 3, norb := 3, nep := 2, expansion := () }

/-- A persisted group tagged with a class name that is not a known
wavefunction variant. -/
def fooGroup : WfnGroup Unit :=
  { classAttr := some "Foo", ints := [], subs := [] }

/-! ## Claims -/

/-- C5: for every validly constructed `ClosedShellWFN` the electron count
`nel` equals twice the `nep` it was constructed with, and for every
validly constructed `OpenShellWFN` it equals the sum of the `nalpha` and
`nbeta` it was constructed with. -/
theorem c5_electron_count {E : Type} (create : Int → Int → E)
    (nep nbasis na nb nbasis2 : Int) (norb norb2 : Option Int)
    (wc : ClosedShellWFN E) (tc : List (Int × Int))
    (wo : OpenShellWFN E) (tow : List (Int × Int))
    (hc : ClosedShellWFN.make create nep nbasis norb = (.ok wc, tc))
    (ho : OpenShellWFN.make create na nb nbasis2 norb2 = (.ok wo, tow)) :
    wc.nel = 2 * nep ∧ wo.nel = na + nb := by
  obtain ⟨-, -, -, hnep, -⟩ := closed_make_ok _ _ _ _ _ _ hc
  obtain ⟨-, -, -, -, -, -, hna, hnb, -⟩ := open_make_ok _ _ _ _ _ _ _ ho
  constructor
  · unfold ClosedShellWFN.nel
    rw [hnep]; ring
  · unfold OpenShellWFN.nel
    rw [hna, hnb]

/-- Witness for C5 at `nep = 1, nbasis = 2` (closed) and
`nalpha = 2, nbeta = 1, nbasis = 3` (open). -/
theorem c5_electron_count_witness :
    sampleClosed.nel = 2 * 1 ∧ sampleOpen.nel = 2 + 1 :=
  c5_electron_count (fun _ _ => ()) 1 2 2 1 3 none none
    sampleClosed [(2, 2)] sampleOpen [(3, 3), (3, 3)] rfl rfl

/-- C2: for every `ClosedShellWFN`, the density matrix from `full` is
exactly `2 •` the one from `alpha` (which coincides with the one from
`beta`), `iter_expansions "spin"` is the empty sequence, and the spin
density matrix is the zero matrix; for every `OpenShellWFN`, the density
from `spin` is the alpha density minus the beta density and the density
from `full` is their sum. The expansion density contribution is the
abstract `contrib`, linear in the scale factor by the collaborator
assumption built into `accumDensity`. -/
theorem c2_density_matrix_relations {E M : Type} [AddCommGroup M]
    (contrib : E → Int → M) (wc : ClosedShellWFN E) (wo : OpenShellWFN E)
    (dm1 dm2 dm3 dm4 : M) :
    (wc.compute_density_matrix contrib dm1 "alpha" =
        .ok (contrib wc.expansion wc.nep) ∧
     wc.compute_density_matrix contrib dm2 "beta" =
        .ok (contrib wc.expansion wc.nep) ∧
     wc.compute_density_matrix contrib dm3 "full" =
        .ok ((2 : ℤ) • contrib wc.expansion wc.nep)) ∧
    wc.iter_expansions "spin" = [] ∧
    wc.compute_density_matrix contrib dm4 "spin" = .ok (0 : M) ∧
    (wo.compute_density_matrix contrib dm1 "alpha" =
        .ok (contrib wo.alpha_expansion wo.nalpha) ∧
     wo.compute_density_matrix contrib dm2 "beta" =
        .ok (contrib wo.beta_expansion wo.nbeta) ∧
     wo.compute_density_matrix contrib dm3 "full" =
        .ok (contrib wo.alpha_expansion wo.nalpha +
             contrib wo.beta_expansion wo.nbeta) ∧
     wo.compute_density_matrix contrib dm4 "spin" =
        .ok (contrib wo.alpha_expansion wo.nalpha -
             contrib wo.beta_expansion wo.nbeta)) := by
  unfold ClosedShellWFN.compute_density_matrix OpenShellWFN.compute_density_matrix
    BaseWFN.compute_density_matrix ClosedShellWFN.iter_expansions
    OpenShellWFN.iter_expansions
  simp [accumDensity, sub_eq_add_neg]

/-- C3: for every wavefunction of either variant, every recognized
selection mode and every incoming target value, `compute_density_matrix`
returns the left fold that starts from the zero matrix (the reset of the
target, independent of its incoming value) and accumulates
`scale • contrib expansion nocc` over the triples yielded by
`iter_expansions select`, in order. The embedding is pure, so the
wavefunction itself and every other input are untouched. -/
theorem c3_compute_density_matrix_accumulates {E M : Type} [AddCommGroup M]
    (contrib : E → Int → M) (wc : ClosedShellWFN E) (wo : OpenShellWFN E)
    (dm dm' : M) (s : String)
    (hs : s = "alpha" ∨ s = "beta" ∨ s = "full" ∨ s = "spin") :
    wc.compute_density_matrix contrib dm s =
      .ok ((stepsYields (wc.iter_expansions s)).foldl
        (fun m t => m + t.2.2 • contrib t.1 t.2.1) (0 : M)) ∧
    wc.compute_density_matrix contrib dm s =
      wc.compute_density_matrix contrib dm' s ∧
    wo.compute_density_matrix contrib dm s =
      .ok ((stepsYields (wo.iter_expansions s)).foldl
        (fun m t => m + t.2.2 • contrib t.1 t.2.1) (0 : M)) ∧
    wo.compute_density_matrix contrib dm s =
      wo.compute_density_matrix contrib dm' s := by
  have hc : stepsRaise (wc.iter_expansions s) = false := by
    rcases hs with rfl | rfl | rfl | rfl <;> rfl
  have ho : stepsRaise (wo.iter_expansions s) = false := by
    rcases hs with rfl | rfl | rfl | rfl <;> rfl
  refine ⟨?_, rfl, ?_, rfl⟩
  · exact accumDensity_eq_foldl contrib _ hc 0
  · exact accumDensity_eq_foldl contrib _ ho 0

/-- Witness for C3 at `select = "full"` on concrete wavefunctions, with
`M = ℤ` and the density contribution `contrib e nocc = nocc`. -/
theorem c3_compute_density_matrix_accumulates_witness :
    sampleClosed.compute_density_matrix (fun _ n => n) (5 : ℤ) "full" =
      .ok ((stepsYields (sampleClosed.iter_expansions "full")).foldl
        (fun m t => m + t.2.2 • (fun (_ : Unit) (n : Int) => n) t.1 t.2.1) (0 : ℤ)) ∧
    sampleClosed.compute_density_matrix (fun _ n => n) (5 : ℤ) "full" =
      sampleClosed.compute_density_matrix (fun _ n => n) (7 : ℤ) "full" ∧
    sampleOpen.compute_density_matrix (fun _ n => n) (5 : ℤ) "full" =
      .ok ((stepsYields (sampleOpen.iter_expansions "full")).foldl
        (fun m t => m + t.2.2 • (fun (_ : Unit) (n : Int) => n) t.1 t.2.1) (0 : ℤ)) ∧
    sampleOpen.compute_density_matrix (fun _ n => n) (5 : ℤ) "full" =
      sampleOpen.compute_density_matrix (fun _ n => n) (7 : ℤ) "full" :=
  c3_compute_density_matrix_accumulates (fun _ n => n) sampleClosed sampleOpen
    5 7 "full" (Or.inr (Or.inr (Or.inl rfl)))

/-- C6: for either variant, `iter_expansions` on a `select` value outside
the four recognized modes produces only the raised invalid-selection
error, with no triples yielded before it. -/
theorem c6_invalid_selection {E : Type} (wc : ClosedShellWFN E)
    (wo : OpenShellWFN E) (s : String) (h1 : s ≠ "alpha") (h2 : s ≠ "beta")
    (h3 : s ≠ "full") (h4 : s ≠ "spin") :
    wc.iter_expansions s =
      [.raised (.invalidSelection "select has to be one of alpha, beta, full or spin.")] ∧
    stepsYields (wc.iter_expansions s) = [] ∧
    wo.iter_expansions s =
      [.raised (.invalidSelection "select has to be one of alpha, beta, full or spin.")] ∧
    stepsYields (wo.iter_expansions s) = [] := by
  unfold ClosedShellWFN.iter_expansions OpenShellWFN.iter_expansions
  simp [h1, h2, h3, h4, stepsYields]

/-- Witness for C6 at `select = "bogus"`. -/
theorem c6_invalid_selection_witness :
    sampleClosed.iter_expansions "bogus" =
      [.raised (.invalidSelection "select has to be one of alpha, beta, full or spin.")] ∧
    stepsYields (sampleClosed.iter_expansions "bogus") = [] ∧
    sampleOpen.iter_expansions "bogus" =
      [.raised (.invalidSelection "select has to be one of alpha, beta, full or spin.")] ∧
    stepsYields (sampleOpen.iter_expansions "bogus") = [] :=
  c6_invalid_selection sampleClosed sampleOpen "bogus"
    (by decide) (by decide) (by decide) (by decide)

/-- C9: `apply_basis_permutation` runs the base-class loop over the
subclass default (`full`) selection, so on a `ClosedShellWFN` the single
shared expansion receives `applyP` exactly once (not once per spin
channel, although `full` carries scale 2), on an `OpenShellWFN` each of
the two expansions receives it exactly once, and all other fields are
unchanged. `applyP` is universally quantified, so a double application
`applyP (applyP e)` is excluded. -/
theorem c9_apply_basis_permutation_once {E : Type} (applyP : E → E)
    (wc : ClosedShellWFN E) (wo : OpenShellWFN E) :
    wc.apply_basis_permutation applyP =
      .ok { nbasis := wc.nbasis, norb := wc.norb, nep := wc.nep,
            expansion := applyP wc.expansion } ∧
    wo.apply_basis_permutation applyP =
      .ok { nbasis := wo.nbasis, norb := wo.norb, nalpha := wo.nalpha,
            nbeta := wo.nbeta,
            alpha_expansion := applyP wo.alpha_expansion,
            beta_expansion := applyP wo.beta_expansion } := by
  constructor <;> rfl

/-- C4: construction raises `ElectronCountError` exactly when the physical
parameters are invalid — closed-shell when `nep ≤ 0` or `nbasis < nep`,
open-shell when `nalpha < 0` or `nbeta < 0`, when both counts are zero, or
when `nbasis` is below either count — and in every failing case no object
is produced (the result is not `ok`) and no expansion is allocated from
the factory (the allocation trace is empty). -/
theorem c4_construction_validation {E : Type} (create : Int → Int → E)
    (nep nbasis na nb nbasis2 : Int) (norb norb2 : Option Int) :
    (exceptElectronCountErr (ClosedShellWFN.make create nep nbasis norb).1 = true ↔
      nep ≤ 0 ∨ nbasis < nep) ∧
    (exceptOk (ClosedShellWFN.make create nep nbasis norb).1 = true ↔
      ¬(nep ≤ 0 ∨ nbasis < nep)) ∧
    ((nep ≤ 0 ∨ nbasis < nep) →
      (ClosedShellWFN.make create nep nbasis norb).2 = []) ∧
    (exceptElectronCountErr (OpenShellWFN.make create na nb nbasis2 norb2).1 = true ↔
      (na < 0 ∨ nb < 0) ∨ (na = 0 ∧ nb = 0) ∨ nbasis2 < na ∨ nbasis2 < nb) ∧
    (exceptOk (OpenShellWFN.make create na nb nbasis2 norb2).1 = true ↔
      ¬((na < 0 ∨ nb < 0) ∨ (na = 0 ∧ nb = 0) ∨ nbasis2 < na ∨ nbasis2 < nb)) ∧
    (((na < 0 ∨ nb < 0) ∨ (na = 0 ∧ nb = 0) ∨ nbasis2 < na ∨ nbasis2 < nb) →
      (OpenShellWFN.make create na nb nbasis2 norb2).2 = []) := by
  unfold ClosedShellWFN.make OpenShellWFN.make
  refine ⟨?_, ?_, ?_, ?_, ?_, ?_⟩ <;>
    · split_ifs <;> simp [exceptElectronCountErr, exceptOk] <;> omega

/-- C10: `iter_expansions` is a generator, so calling it with an
unrecognized `select` returns the generator without raising (in this
embedding the call is a total function into a step trace); the
invalid-selection error surfaces only when the returned sequence is first
advanced. -/
theorem c10_error_raised_on_first_advance {E : Type} (wc : ClosedShellWFN E)
    (wo : OpenShellWFN E) (s : String) (h1 : s ≠ "alpha") (h2 : s ≠ "beta")
    (h3 : s ≠ "full") (h4 : s ≠ "spin") :
    genNext (wc.iter_expansions s) =
      .error (.invalidSelection "select has to be one of alpha, beta, full or spin.") ∧
    genNext (wo.iter_expansions s) =
      .error (.invalidSelection "select has to be one of alpha, beta, full or spin.") := by
  unfold ClosedShellWFN.iter_expansions OpenShellWFN.iter_expansions
  simp [h1, h2, h3, h4, genNext]

/-- Witness for C10 at `select = "occupied"`. -/
theorem c10_error_raised_on_first_advance_witness :
    genNext (sampleClosed.iter_expansions "occupied") =
      .error (.invalidSelection "select has to be one of alpha, beta, full or spin.") ∧
    genNext (sampleOpen.iter_expansions "occupied") =
      .error (.invalidSelection "select has to be one of alpha, beta, full or spin.") :=
  c10_error_raised_on_first_advance sampleClosed sampleOpen "occupied"
    (by decide) (by decide) (by decide) (by decide)

/-- C7 counterexample: `ClosedShellWFN.__init__` performs no validation of
`norb`, so construction with `nep = 2`, `nbasis = 3`, `norb = 1` succeeds
and produces a wavefunction whose `norb` is strictly below the number of
physically occupied orbitals `nep`, refuting the claimed invariant
`norb ≥ nep`. -/
theorem c7_counterexample_low_norb :
    ClosedShellWFN.make (fun _ _ => ()) 2 3 (some 1) =
      (.ok lowNorbClosed, [(3, 1)]) ∧
    ¬ lowNorbClosed.nep ≤ lowNorbClosed.norb := by
  constructor
  · rfl
  · decide

/-- C7 as amended: `norb` defaults to `nbasis` when not specified at
construction; when specified, the given value is stored as is, without
validation against the occupied counts or positivity. -/
theorem c7_amended_norb_default {E : Type} (create : Int → Int → E)
    (nep nbasis na nb nbasis2 v v2 : Int)
    (wc wc2 : ClosedShellWFN E) (wo wo2 : OpenShellWFN E)
    (t1 t2 t3 t4 : List (Int × Int))
    (hc : ClosedShellWFN.make create nep nbasis none = (.ok wc, t1))
    (hc2 : ClosedShellWFN.make create nep nbasis (some v) = (.ok wc2, t2))
    (ho : OpenShellWFN.make create na nb nbasis2 none = (.ok wo, t3))
    (ho2 : OpenShellWFN.make create na nb nbasis2 (some v2) = (.ok wo2, t4)) :
    wc.norb = wc.nbasis ∧ wc2.norb = v ∧
    wo.norb = wo.nbasis ∧ wo2.norb = v2 := by
  obtain ⟨-, -, hb, -, hr, -⟩ := closed_make_ok _ _ _ _ _ _ hc
  obtain ⟨-, -, -, -, hr2, -⟩ := closed_make_ok _ _ _ _ _ _ hc2
  obtain ⟨-, -, -, -, -, hob, -, -, hor, -⟩ := open_make_ok _ _ _ _ _ _ _ ho
  obtain ⟨-, -, -, -, -, -, -, -, hor2, -⟩ := open_make_ok _ _ _ _ _ _ _ ho2
  exact ⟨by simp [hr, hb], by simp [hr2], by simp [hor, hob], by simp [hor2]⟩

/-- Witness for the amended C7: the default case at `nep = 2, nbasis = 3`
and `nalpha = 2, nbeta = 1, nbasis = 3`, and the stored-as-given case at
`norb = 1`. -/
theorem c7_amended_norb_default_witness :
    defNorbClosed.norb = defNorbClosed.nbasis ∧ lowNorbClosed.norb = 1 ∧
    sampleOpen.norb = sampleOpen.nbasis ∧ lowNorbOpen.norb = 1 :=
  c7_amended_norb_default (fun _ _ => ()) 2 3 2 1 3 1 1
    defNorbClosed lowNorbClosed sampleOpen lowNorbOpen
    [(3, 3)] [(3, 1)] [(3, 3), (3, 3)] [(3, 1), (3, 1)]
    rfl rfl rfl rfl

/-- C8: the deserialization dispatch `BaseWFN.from_hdf5` invokes exactly
the reconstruction routine named by the `class` discriminant, and fails
with `TypeError` — never a fallback instance — when the discriminant is
neither known variant name. -/
theorem c8_dispatch_on_class {E EG : Type} (create : Int → Int → E)
    (expRead : E → EG → E) (g : WfnGroup EG) (c : String)
    (hattr : g.classAttr = some c) :
    (c = "ClosedShellWFN" →
      BaseWFN.from_hdf5 create expRead g =
        (ClosedShellWFN.from_hdf5 create expRead g).map Sum.inl) ∧
    (c = "OpenShellWFN" →
      BaseWFN.from_hdf5 create expRead g =
        (OpenShellWFN.from_hdf5 create expRead g).map Sum.inr) ∧
    (c ≠ "ClosedShellWFN" → c ≠ "OpenShellWFN" →
      BaseWFN.from_hdf5 create expRead g = .error (.typeError c)) := by
  unfold BaseWFN.from_hdf5
  rw [hattr]
  refine ⟨?_, ?_, ?_⟩
  · rintro rfl; simp
  · rintro rfl; simp
  · intro h1 h2; simp [h1, h2]

/-- Witness for C8 at the unrecognized discriminant `"Foo"` on a concrete
group. -/
theorem c8_dispatch_on_class_witness :
    (("Foo" : String) = "ClosedShellWFN" →
      BaseWFN.from_hdf5 (fun _ _ => ()) (fun e _ => e) fooGroup =
        (ClosedShellWFN.from_hdf5 (fun _ _ => ()) (fun e _ => e) fooGroup).map Sum.inl) ∧
    (("Foo" : String) = "OpenShellWFN" →
      BaseWFN.from_hdf5 (fun _ _ => ()) (fun e _ => e) fooGroup =
        (OpenShellWFN.from_hdf5 (fun _ _ => ()) (fun e _ => e) fooGroup).map Sum.inr) ∧
    (("Foo" : String) ≠ "ClosedShellWFN" → ("Foo" : String) ≠ "OpenShellWFN" →
      BaseWFN.from_hdf5 (fun _ _ => ()) (fun e _ => e) fooGroup =
        .error (.typeError "Foo")) :=
  c8_dispatch_on_class (fun _ _ => ()) (fun e _ => e) fooGroup "Foo" rfl

/-- C1: serializing a validly constructed wavefunction of either variant
(`to_hdf5` plus the variant tag) and deserializing the same group through
the top-level dispatch reproduces a wavefunction with identical `nbasis`,
`norb` and electron-count fields (`nep`, respectively `nalpha` and
`nbeta`). -/
theorem c1_hdf5_roundtrip {E EG : Type} (create : Int → Int → E)
    (expToH : E → EG) (expRead : E → EG → E)
    (nep nbasis na nb nbasis2 : Int) (norb norb2 : Option Int)
    (wc : ClosedShellWFN E) (tc : List (Int × Int))
    (wo : OpenShellWFN E) (tow : List (Int × Int))
    (hc : ClosedShellWFN.make create nep nbasis norb = (.ok wc, tc))
    (ho : OpenShellWFN.make create na nb nbasis2 norb2 = (.ok wo, tow)) :
    (∃ wc' : ClosedShellWFN E,
      BaseWFN.from_hdf5 create expRead (wc.dump expToH) = .ok (.inl wc') ∧
      wc'.nbasis = wc.nbasis ∧ wc'.norb = wc.norb ∧ wc'.nep = wc.nep) ∧
    (∃ wo' : OpenShellWFN E,
      BaseWFN.from_hdf5 create expRead (wo.dump expToH) = .ok (.inr wo') ∧
      wo'.nbasis = wo.nbasis ∧ wo'.norb = wo.norb ∧
      wo'.nalpha = wo.nalpha ∧ wo'.nbeta = wo.nbeta) := by
  obtain ⟨hp, hle, hb, hn, -⟩ := closed_make_ok _ _ _ _ _ _ hc
  obtain ⟨ha0, hb0, hnz, hale, hble, hob, hoa, hobt, -⟩ :=
    open_make_ok _ _ _ _ _ _ _ ho
  constructor
  · have hmk : ClosedShellWFN.make create wc.nep wc.nbasis (some wc.norb) =
        (.ok { nbasis := wc.nbasis, norb := wc.norb, nep := wc.nep,
               expansion := create wc.nbasis wc.norb }, [(wc.nbasis, wc.norb)]) := by
      unfold ClosedShellWFN.make
      rw [if_neg (by omega), if_neg (by omega)]
    refine ⟨{ nbasis := wc.nbasis, norb := wc.norb, nep := wc.nep,
              expansion := expRead (create wc.nbasis wc.norb) (expToH wc.expansion) },
            ?_, rfl, rfl, rfl⟩
    simp [BaseWFN.from_hdf5, ClosedShellWFN.dump, ClosedShellWFN.to_hdf5,
      ClosedShellWFN.from_hdf5, WfnGroup.getInt, WfnGroup.getSub, lookupKey,
      hmk, Bind.bind, Except.bind, Except.map, pure, Except.pure]
  · have hmk : OpenShellWFN.make create wo.nalpha wo.nbeta wo.nbasis (some wo.norb) =
        (.ok { nbasis := wo.nbasis, norb := wo.norb, nalpha := wo.nalpha,
               nbeta := wo.nbeta,
               alpha_expansion := create wo.nbasis wo.norb,
               beta_expansion := create wo.nbasis wo.norb },
         [(wo.nbasis, wo.norb), (wo.nbasis, wo.norb)]) := by
      unfold OpenShellWFN.make
      rw [if_neg (by omega), if_neg (by omega), if_neg (by omega)]
    refine ⟨{ nbasis := wo.nbasis, norb := wo.norb, nalpha := wo.nalpha,
              nbeta := wo.nbeta,
              alpha_expansion :=
                expRead (create wo.nbasis wo.norb) (expToH wo.alpha_expansion),
              beta_expansion :=
                expRead (create wo.nbasis wo.norb) (expToH wo.beta_expansion) },
            ?_, rfl, rfl, rfl, rfl⟩
    simp [BaseWFN.from_hdf5, OpenShellWFN.dump, OpenShellWFN.to_hdf5,
      OpenShellWFN.from_hdf5, WfnGroup.getInt, WfnGroup.getSub, lookupKey,
      hmk, Bind.bind, Except.bind, Except.map, pure, Except.pure]

/-- Witness for C1 on the concrete wavefunctions produced by
`ClosedShellWFN.make (fun x y => ()) 1 2 none` and
`OpenShellWFN.make (fun x y => ()) 2 1 3 none`. -/
theorem c1_hdf5_roundtrip_witness :
    (∃ wc' : ClosedShellWFN Unit,
      BaseWFN.from_hdf5 (fun _ _ => ()) (fun e _ => e)
          (sampleClosed.dump (fun _ => ())) = .ok (.inl wc') ∧
      wc'.nbasis = sampleClosed.nbasis ∧ wc'.norb = sampleClosed.norb ∧
      wc'.nep = sampleClosed.nep) ∧
    (∃ wo' : OpenShellWFN Unit,
      BaseWFN.from_hdf5 (fun _ _ => ()) (fun e _ => e)
          (sampleOpen.dump (fun _ => ())) = .ok (.inr wo') ∧
      wo'.nbasis = sampleOpen.nbasis ∧ wo'.norb = sampleOpen.norb ∧
      wo'.nalpha = sampleOpen.nalpha ∧ wo'.nbeta = sampleOpen.nbeta) :=
  c1_hdf5_roundtrip (fun _ _ => ()) (fun _ => ()) (fun e _ => e)
    1 2 2 1 3 none none sampleClosed [(2, 2)] sampleOpen [(3, 3), (3, 3)]
    rfl rfl

end Horton
